import Mathlib

/-!
# Verification of the news-feed pipeline (`database_api/hw_with_pyodbc.py`)

Shallow embedding of the pure core of the news-feed application:
the sentence normalizer (`BaseNormalizer.normalize_text`), the letter
statistics (`TextAnalyzer.calculate_letter_frequencies`), the record store
operations (`DatabaseManager.add_news` / `add_private_ad` /
`add_motivation_quote`), the file-backed append log (`NewsFeed`), and the
delimited-text and JSON importers (`FileProcessor.process_file`,
`JsonProcessor.process_file`).

Strings are modelled over their character lists; Python string methods
(`strip`, `capitalize`, `lower`, `split`, `join`, `startswith`) are
re-implemented character by character for the ASCII range, which covers
every string the program manipulates in the claims under study.  Python
floats appearing in the letter statistics (`round(100*u/c, 2)`) are
modelled by exact rational arithmetic with round-half-to-even.
-/

namespace NewsPipeline

/-- ASCII whitespace recognised by Python's `str.strip` / `\s`. -/
def pyIsSpace (c : Char) : Bool :=
  c = ' ' || c = '\t' || c = '\n' || c = '\r' || c = '\x0b' || c = '\x0c'

/-- The sentence-terminal punctuation class `[.!?]` of the regex in
`BaseNormalizer.normalize_text`. -/
def isPunct (c : Char) : Bool :=
  c = '.' || c = '!' || c = '?'

/-- `str.strip()` on a character list: drop leading and trailing whitespace. -/
def stripList (cs : List Char) : List Char :=
  (((cs.dropWhile pyIsSpace).reverse).dropWhile pyIsSpace).reverse

/-- Python `text.strip()`. -/
def pyStrip (s : String) : String :=
  String.mk (stripList s.data)

/-- Python `str.capitalize()` on a character list: first character
uppercased, every other character lowercased. -/
def pyCapitalizeList : List Char → List Char
  | [] => []
  | c :: rest => c.toUpper :: rest.map Char.toLower

/-- Python `text.capitalize()`. -/
def pyCapitalize (s : String) : String :=
  String.mk (pyCapitalizeList s.data)

/-- Python `text.lower()` (ASCII). -/
def pyLower (s : String) : String :=
  String.mk (s.data.map Char.toLower)

/-- State of the left-to-right scanner implementing
`re.split(r'([.!?])\s+', text)`:
`out` holds the completed pieces in reverse order, `acc` the current
fragment in reverse, `pending` a just-seen punctuation character whose
classification (boundary or ordinary character) depends on the next
character, and `skip` is true while consuming the `\s+` of a match. -/
structure SplitState where
  out : List (List Char)
  acc : List Char
  pending : Option Char
  skip : Bool
deriving DecidableEq

/-- One scanner step of `re.split(r'([.!?])\s+', text)`: a punctuation
character followed by whitespace ends the current fragment, emits the
fragment and the captured punctuation, and starts skipping the whitespace
run; any other character extends the current fragment. -/
def splitStep (st : SplitState) (x : Char) : SplitState :=
  if st.skip then
    if pyIsSpace x then st
    else if isPunct x then ⟨st.out, [], some x, false⟩
    else ⟨st.out, [x], none, false⟩
  else
    match st.pending with
    | some p =>
      if pyIsSpace x then
        ⟨[p] :: st.acc.reverse :: st.out, [], none, true⟩
      else if isPunct x then
        ⟨st.out, p :: st.acc, some x, false⟩
      else
        ⟨st.out, x :: p :: st.acc, none, false⟩
    | none =>
      if isPunct x then ⟨st.out, st.acc, some x, false⟩
      else ⟨st.out, x :: st.acc, none, false⟩

/-- `re.split(r'([.!?])\s+', s)`: the list of fragments with the captured
punctuation characters interleaved (always an odd number of pieces:
fragment, punctuation, fragment, …, fragment). -/
def reSplitPunctSpace (s : String) : List String :=
  let st := s.data.foldl splitStep ⟨[], [], none, false⟩
  let last :=
    match st.pending with
    | some p => (p :: st.acc).reverse
    | none => st.acc.reverse
  ((last :: st.out).reverse).map String.mk

/-- Python `sep.join(parts)`. -/
def pyJoin (sep : String) : List String → String
  | [] => ""
  | [x] => x
  | x :: rest => x ++ sep ++ pyJoin sep rest

/-- The loop `for i in range(0, len(sentences) - 1, 2)` of
`normalize_text`: walk the (fragment, punctuation) pairs, capitalizing each
fragment and reattaching its punctuation.  A final unpaired element —
always present, since the split list has odd length — is never visited by
the loop and is dropped. -/
def normPairs : List String → List String
  | s :: p :: rest => (pyCapitalize s ++ p) :: normPairs rest
  | _ => []

/-- `BaseNormalizer.normalize_text` (lines 14–27): split the stripped text
on sentence-terminal punctuation followed by whitespace; if there is no
such boundary, return `text.capitalize()` of the original (unstripped)
text; otherwise capitalize each fragment, reattach its punctuation, and
join with single spaces. -/
def normalize_text (text : String) : String :=
  let sentences := reSplitPunctSpace (pyStrip text)
  if sentences.length == 1 then
    pyCapitalize text
  else
    pyJoin " " (normPairs sentences)

/-! ## TextAnalyzer -/

/-- ASCII uppercase test, Python `char.isupper()` restricted to the ASCII
characters the program can look up. -/
def pyIsUpper (c : Char) : Bool :=
  'A' ≤ c && c ≤ 'Z'

/-- The character class `[a-zA-Z]` of `calculate_letter_frequencies`. -/
def isAsciiLetter (c : Char) : Bool :=
  ('a' ≤ c && c ≤ 'z') || ('A' ≤ c && c ≤ 'Z')

/-- One step of `collections.Counter`: increment the key if present,
otherwise append it (Counter preserves first-seen insertion order). -/
def counterInsert : List (Char × Nat) → Char → List (Char × Nat)
  | [], c => [(c, 1)]
  | (k, n) :: rest, c =>
    if k = c then (k, n + 1) :: rest else (k, n) :: counterInsert rest c

/-- `collections.Counter(chars)` as an insertion-ordered association list. -/
def pyCounter (cs : List Char) : List (Char × Nat) :=
  cs.foldl counterInsert []

/-- `Counter.get(key, 0)`. -/
def counterGet (m : List (Char × Nat)) (c : Char) : Nat :=
  (m.lookup c).getD 0

/-- Round a rational to the nearest integer, ties to even — the rounding
of Python's builtin `round`. -/
def roundHalfEven (q : ℚ) : ℤ :=
  let f := ⌊q⌋
  let r := q - f
  if r < 1 / 2 then f
  else if 1 / 2 < r then f + 1
  else if f % 2 = 0 then f else f + 1

/-- Python `round(q, 2)`, modelled on exact rationals. -/
def round2 (q : ℚ) : ℚ :=
  (roundHalfEven (q * 100) : ℚ) / 100

/-- `TextAnalyzer.calculate_letter_frequencies` (lines 41–58): count the
`[a-zA-Z]` occurrences of the text verbatim (case-sensitively), count the
uppercase characters of the text, and report per found letter the pair of
counts and the uppercase percentage `round(100 * upper / count, 2)`. -/
def calculate_letter_frequencies (text : String) :
    List (Char × Nat × Nat × ℚ) :=
  let all_letters := text.data.filter isAsciiLetter
  let letter_counts := pyCounter all_letters
  let uppercase_counts := pyCounter (text.data.filter pyIsUpper)
  letter_counts.map fun kv =>
    let u := counterGet uppercase_counts kv.1.toUpper
    (kv.1, kv.2, u, if 0 < kv.2 then round2 (100 * u / kv.2) else 0)

/-! ## DatabaseManager: the record store -/

/-- Result of a `DatabaseManager.add_*` call.  The Python methods return
`False` after printing either the duplicate message or the invalid-date
message, and `True` on insertion; the three branches of the source are kept
apart here. -/
inductive AddResult
  | Inserted
  | Duplicate
  | InvalidDate
deriving DecidableEq

/-- A `datetime.datetime` value: calendar date plus time of day
(microseconds since midnight). -/
structure PyDateTime where
  year : Nat
  month : Nat
  day : Nat
  microOfDay : Nat
deriving DecidableEq

/-- A row of the `news` table. -/
structure NewsRow where
  text : String
  city : String
  date : PyDateTime
deriving DecidableEq

/-- A row of the `private_ads` table. -/
structure AdRow where
  text : String
  expiration_date : String
  days_left : ℤ
deriving DecidableEq

/-- A row of the `quotes` table. -/
structure QuoteRow where
  quote : String
  author : String
deriving DecidableEq

/-- The three tables of `news_feed.db`, rows in insertion order. -/
structure DB where
  news : List NewsRow
  private_ads : List AdRow
  quotes : List QuoteRow
deriving DecidableEq

/-- Gregorian leap-year rule, as in Python's `datetime`. -/
def isLeapYear (y : Nat) : Bool :=
  y % 4 = 0 && (y % 100 ≠ 0 || y % 400 = 0)

/-- Length of a month in the proleptic Gregorian calendar. -/
def daysInMonth (y m : Nat) : Nat :=
  if m = 2 then (if isLeapYear y then 29 else 28)
  else if m = 4 || m = 6 || m = 9 || m = 11 then 30
  else 31

/-- Split a character list on a separator character (Python
`s.split(sep)` for a one-character separator). -/
def splitOnChar (sep : Char) : List Char → List (List Char)
  | [] => [[]]
  | c :: rest =>
    match splitOnChar sep rest with
    | [] => [[]]
    | h :: t => if c = sep then [] :: h :: t else (c :: h) :: t

/-- Digits of a numeral to its value. -/
def digitsToNat (cs : List Char) : Nat :=
  cs.foldl (fun n c => 10 * n + (c.toNat - '0'.toNat)) 0

/-- `datetime.datetime.strptime(s, "%Y-%m-%d")` (success cases): the
string must be `Y-M-D` where `Y` is exactly four digits forming a year
≥ 1, `M` is one or two digits forming a month 1–12, and `D` is one or two
digits forming a day valid for that month. -/
def parseExpirationDate (s : String) : Option (Nat × Nat × Nat) :=
  match splitOnChar '-' s.data with
  | [y, m, d] =>
    if y.length = 4 && y.all Char.isDigit &&
        (m.length = 1 || m.length = 2) && m.all Char.isDigit &&
        (d.length = 1 || d.length = 2) && d.all Char.isDigit then
      let yv := digitsToNat y
      let mv := digitsToNat m
      let dv := digitsToNat d
      if 1 ≤ yv && 1 ≤ mv && mv ≤ 12 && 1 ≤ dv && dv ≤ daysInMonth yv mv then
        some (yv, mv, dv)
      else none
    else none
  | _ => none

/-- `datetime.date.toordinal`: day count of the proleptic Gregorian
calendar with `0001-01-01 = 1`. -/
def toOrdinal (y m d : Nat) : Nat :=
  365 * (y - 1) + (y - 1) / 4 - (y - 1) / 100 + (y - 1) / 400 +
    ((List.range (m - 1)).map (fun i => daysInMonth y (i + 1))).sum + d

/-- `(exp_date - datetime.datetime.now()).days`: the timedelta between the
parsed expiration date (at midnight) and `now` is floored to whole days,
so a nonzero time of day on `now` lowers the difference by one. -/
def daysLeft (exp : Nat × Nat × Nat) (now : PyDateTime) : ℤ :=
  (toOrdinal exp.1 exp.2.1 exp.2.2 : ℤ) -
    (toOrdinal now.year now.month now.day : ℤ) -
    (if 0 < now.microOfDay then 1 else 0)

/-- `DatabaseManager.is_duplicate_news` (lines 139–142):
`SELECT COUNT(*) FROM news WHERE text = ? AND city = ?` is positive. -/
def is_duplicate_news (db : DB) (text city : String) : Bool :=
  db.news.any fun r => r.text == text && r.city == city

/-- `DatabaseManager.is_duplicate_ad` (lines 144–147). -/
def is_duplicate_ad (db : DB) (text : String) : Bool :=
  db.private_ads.any fun r => r.text == text

/-- `DatabaseManager.is_duplicate_quote` (lines 149–152). -/
def is_duplicate_quote (db : DB) (quote author : String) : Bool :=
  db.quotes.any fun r => r.quote == quote && r.author == author

/-- `DatabaseManager.add_news` (lines 154–166): refuse a duplicate
(text, city) key, otherwise insert the row stamped with `now` and commit. -/
def dm_add_news (db : DB) (text city : String) (now : PyDateTime) :
    AddResult × DB :=
  if is_duplicate_news db text city then (.Duplicate, db)
  else (.Inserted, { db with news := db.news ++ [⟨text, city, now⟩] })

/-- `DatabaseManager.add_private_ad` (lines 168–186): the duplicate check
on the text comes first; only then is `expiration_date` parsed, a failure
leaving the store untouched. -/
def dm_add_private_ad (db : DB) (text exp_date_str : String)
    (now : PyDateTime) : AddResult × DB :=
  if is_duplicate_ad db text then (.Duplicate, db)
  else
    match parseExpirationDate exp_date_str with
    | some ymd =>
      (.Inserted, { db with
        private_ads := db.private_ads ++ [⟨text, exp_date_str, daysLeft ymd now⟩] })
    | none => (.InvalidDate, db)

/-- `DatabaseManager.add_motivation_quote` (lines 188–199). -/
def dm_add_motivation_quote (db : DB) (quote author : String) :
    AddResult × DB :=
  if is_duplicate_quote db quote author then (.Duplicate, db)
  else (.Inserted, { db with quotes := db.quotes ++ [⟨quote, author⟩] })

/-! ## NewsFeed: normalization, store, append log -/

/-- Zero-pad a numeral to two digits. -/
def pad2 (n : Nat) : String :=
  if n < 10 then "0" ++ toString n else toString n

/-- Zero-pad a numeral to four digits. -/
def pad4 (n : Nat) : String :=
  if n < 10 then "000" ++ toString n
  else if n < 100 then "00" ++ toString n
  else if n < 1000 then "0" ++ toString n
  else toString n

/-- `now.strftime("%Y-%m-%d %H:%M:%S")`. -/
def strftimeFull (t : PyDateTime) : String :=
  let secs := t.microOfDay / 1000000
  pad4 t.year ++ "-" ++ pad2 t.month ++ "-" ++ pad2 t.day ++ " " ++
    pad2 (secs / 3600) ++ ":" ++ pad2 (secs % 3600 / 60) ++ ":" ++
    pad2 (secs % 60)

/-- The observable state of a `NewsFeed`: the database plus the
`news_feed.txt` append log, one list entry per block written by
`write_to_file` (each block is terminated in the file by a blank line). -/
structure Feed where
  db : DB
  log : List String
deriving DecidableEq

/-- `NewsFeed.add_news` (lines 232–243): normalize the text, insert via
the database manager, and on success append the formatted news block to
the log and return `True`. -/
def nf_add_news (f : Feed) (text city : String) (now : PyDateTime) :
    Bool × Feed :=
  let text := normalize_text text
  match dm_add_news f.db text city now with
  | (.Inserted, db) =>
    let entry := "News -------------------------\n" ++ text ++
      "\nCity: " ++ city ++ ", Date: " ++ strftimeFull now
    (true, ⟨db, f.log ++ [entry]⟩)
  | (_, db) => (false, ⟨db, f.log⟩)

/-- `NewsFeed.add_private_ad` (lines 245–260): normalize the text, insert
via the database manager (which also parses the date), and on success
append the formatted ad block.  When the manager reported success the date
is guaranteed to re-parse, so the inner `try` never fails. -/
def nf_add_private_ad (f : Feed) (text exp_date_str : String)
    (now : PyDateTime) : Bool × Feed :=
  let text := normalize_text text
  match dm_add_private_ad f.db text exp_date_str now with
  | (.Inserted, db) =>
    let days :=
      match parseExpirationDate exp_date_str with
      | some ymd => daysLeft ymd now
      | none => 0
    let entry := "Private Ad ------------------\n" ++ text ++
      "\nExpires on: " ++ exp_date_str ++ ", Days left: " ++ toString days
    (true, ⟨db, f.log ++ [entry]⟩)
  | (_, db) => (false, ⟨db, f.log⟩)

/-- `NewsFeed.add_motivation_quote` (lines 262–272). -/
def nf_add_motivation_quote (f : Feed) (quote author : String) :
    Bool × Feed :=
  let quote := normalize_text quote
  match dm_add_motivation_quote f.db quote author with
  | (.Inserted, db) =>
    let entry := "Motivational Quote ----------\n\"" ++ quote ++
      "\"\n- " ++ author
    (true, ⟨db, f.log ++ [entry]⟩)
  | (_, db) => (false, ⟨db, f.log⟩)

/-! ## FileProcessor: the delimited-text importer -/

/-- `s.startswith(pat)`. -/
def pyStartsWith (s pat : String) : Bool :=
  go s.data pat.data
where
  go : List Char → List Char → Bool
    | _, [] => true
    | [], _ :: _ => false
    | c :: cs, p :: ps => c = p && go cs ps

/-- Python `s.split(sep, 1)` for a one-character separator: at most one
split, at the first occurrence. -/
def pySplitOnce (sep : Char) (s : String) : List String :=
  match splitOnChar sep s.data with
  | [] => [s]
  | [x] => [String.mk x]
  | x :: rest =>
    [String.mk x, pyJoin (String.mk [sep]) (rest.map String.mk)]

/-- Scanner state for `content.split("---")`: completed parts (reversed),
current part (reversed), and the number of consecutive dashes pending. -/
structure DashSplitState where
  out : List (List Char)
  acc : List Char
  dashes : Nat
deriving DecidableEq

/-- One character of `content.split("---")`: a third consecutive dash
completes a separator and emits the current part; a non-dash flushes any
pending dashes into the current part. -/
def dashStep (st : DashSplitState) (c : Char) : DashSplitState :=
  if c = '-' then
    if st.dashes = 2 then ⟨st.acc.reverse :: st.out, [], 0⟩
    else ⟨st.out, st.acc, st.dashes + 1⟩
  else
    ⟨st.out, c :: (List.replicate st.dashes '-' ++ st.acc), 0⟩

/-- Python `content.split("---")`. -/
def pySplitDashes (s : String) : List String :=
  let st := s.data.foldl dashStep ⟨[], [], 0⟩
  let last := (List.replicate st.dashes '-' ++ st.acc).reverse
  ((last :: st.out).reverse).map String.mk

/-- The body of the `for record in records` loop of
`FileProcessor.process_file` (lines 295–318) on one raw block: classify
by case-insensitive prefix, split the remainder on the first newline into
the two kind-specific fields, and feed the `NewsFeed`; a block matching no
prefix is reported and skipped.  `none` models the uncaught `ValueError`
raised when the two-field unpacking fails (no newline in the remainder). -/
def fp_process_block (f : Feed) (now : PyDateTime) (record0 : String) :
    Option Feed :=
  let record := pyStrip record0
  if pyStartsWith (pyLower record) "news:" then
    match pySplitOnce ':' record with
    | [_, text_and_city] =>
      match pySplitOnce '\n' (pyStrip text_and_city) with
      | [text, city] =>
        some (nf_add_news f (pyStrip text) (pyStrip city) now).2
      | _ => none
    | _ => none
  else if pyStartsWith (pyLower record) "private ad:" then
    match pySplitOnce ':' record with
    | [_, text_and_date] =>
      match pySplitOnce '\n' (pyStrip text_and_date) with
      | [text, exp_date] =>
        some (nf_add_private_ad f (pyStrip text) (pyStrip exp_date) now).2
      | _ => none
    | _ => none
  else if pyStartsWith (pyLower record) "motivational quote:" then
    match pySplitOnce ':' record with
    | [_, quote_and_author] =>
      match pySplitOnce '\n' (pyStrip quote_and_author) with
      | [quote, author] =>
        some (nf_add_motivation_quote f (pyStrip quote) (pyStrip author)).2
      | _ => none
    | _ => none
  else
    some f

/-- The `for record in records` loop: process blocks in order; an
exception aborts the loop, keeping the feed state already built (records
inserted before the failure stay inserted). -/
def fp_process_blocks (now : PyDateTime) :
    List String → Feed → Feed × Bool
  | [], f => (f, true)
  | r :: rest, f =>
    match fp_process_block f now r with
    | some f2 => fp_process_blocks now rest f2
    | none => (f, false)

/-- `FileProcessor.process_file` (lines 282–330) on the file's content
(file existence and reading are outside this model): strip, split on
`---`, run the loop.  The boolean result is the method's return value;
`true` is returned exactly on the path that also deletes the source file,
so it doubles as "the source file was removed". -/
def fp_process_file (content : String) (f : Feed) (now : PyDateTime) :
    Feed × Bool :=
  fp_process_blocks now (pySplitDashes (pyStrip content)) f

/-! ## JsonProcessor: the structured importer -/

/-- One decoded record object of the JSON input: the fields looked up by
`JsonProcessor.process_file`, each possibly absent.  (`record_data.get(k,
d)` becomes `Option.getD`.) -/
structure JsonRecord where
  publication_type : Option String := none
  text : Option String := none
  city : Option String := none
  date : Option String := none
  author : Option String := none
deriving DecidableEq

/-- The body of the `for record_id, record_data in records.items()` loop
of `JsonProcessor.process_file` (lines 351–368): dispatch on the
lower-cased `publication_type`, defaulting missing `text` to `""` and
missing `city`/`author` to `"Unknown"`; unknown types are reported and
skipped. -/
def json_process_record (f : Feed) (now : PyDateTime) (r : JsonRecord) :
    Feed :=
  let publication_type := pyLower (r.publication_type.getD "")
  let text := r.text.getD ""
  if publication_type = "news" then
    (nf_add_news f text (r.city.getD "Unknown") now).2
  else if publication_type = "ads" || publication_type = "ad" then
    (nf_add_private_ad f text (r.date.getD "") now).2
  else if publication_type = "quote" then
    (nf_add_motivation_quote f text (r.author.getD "Unknown")).2
  else
    f

/-- The whole loop of `JsonProcessor.process_file`, over the decoded
mapping in insertion order. -/
def json_process_records (now : PyDateTime)
    (records : List (String × JsonRecord)) (f : Feed) : Feed :=
  records.foldl (fun f r => json_process_record f now r.2) f

/-- The empty store. -/
def emptyDB : DB := ⟨[], [], []⟩

/-- A feed with empty store and empty log. -/
def emptyFeed : Feed := ⟨emptyDB, []⟩

/-- A fixed sample timestamp. -/
def now0 : PyDateTime := ⟨2025, 1, 2, 0⟩

/-! ## Spec-side normalizer and split-analysis helpers -/

/-- The capitalization the spec's words describe: uppercase only the
first character, leave every other character untouched.  This definition
follows the spec, not the source; it exists to be compared with the
source's `pyCapitalize`. -/
def specCapitalize (s : String) : String :=
  match s.data with
  | [] => ""
  | c :: rest => String.mk (c.toUpper :: rest)

/-- The fragment recombination the spec's words describe: capitalize each
fragment (first character only), reattach its punctuation, and keep the
final fragment.  Follows the spec, for comparison with `normPairs`. -/
def specNormPairs : List String → List String
  | s :: p :: rest => (specCapitalize s ++ p) :: specNormPairs rest
  | [s] => [specCapitalize s]
  | [] => []

/-- The normalizer the spec's words describe (for inputs containing a
sentence boundary): same split as the source, first-character-only
capitalization, all fragments kept, rejoined with single spaces. -/
def normalizeTextSpec (text : String) : String :=
  pyJoin " " (specNormPairs (reSplitPunctSpace (pyStrip text)))

/-- No occurrence of sentence-terminal punctuation followed by
whitespace, i.e. the text contains no match of the splitting regex. -/
def noBoundaryB : List Char → Bool
  | [] => true
  | c :: rest =>
    (match rest with
     | d :: _ => !(isPunct c && pyIsSpace d)
     | [] => true) && noBoundaryB rest

/-- The characters a scanner state still owes to the current fragment:
the accumulated fragment plus any pending punctuation character, in
reverse order. -/
def accOf (st : SplitState) : List Char :=
  match st.pending with
  | some p => p :: st.acc
  | none => st.acc

/-- The pending punctuation of a scanner state, as a character list. -/
def pendList : Option Char → List Char
  | some p => [p]
  | none => []

/-- The first character, if any, is not whitespace. -/
def headNotSpace (l : List Char) : Bool :=
  match l.head? with
  | some c => !pyIsSpace c
  | none => true

/-- The last character, if any, is not whitespace. -/
def lastNotSpace (l : List Char) : Bool :=
  headNotSpace l.reverse

/-! ## Helper lemmas -/

theorem mk_data (s : String) : String.mk s.data = s := rfl

/-- Evaluate `round2` at an integer-valued rational. -/
theorem round2_of_intCast (n : ℤ) (q : ℚ) (h : q * 100 = (n : ℚ)) :
    round2 q = (n : ℚ) / 100 := by
  rw [round2, h]
  simp [roundHalfEven]

/-- A just-inserted news row makes its key a duplicate. -/
theorem is_duplicate_news_concat (db : DB) (t c : String) (d : PyDateTime) :
    is_duplicate_news { db with news := db.news ++ [⟨t, c, d⟩] } t c = true := by
  simp [is_duplicate_news]

/-- A just-inserted ad row makes its text a duplicate. -/
theorem is_duplicate_ad_concat (db : DB) (t e : String) (dl : ℤ) :
    is_duplicate_ad { db with private_ads := db.private_ads ++ [⟨t, e, dl⟩] } t = true := by
  simp [is_duplicate_ad]

/-- A just-inserted quote row makes its key a duplicate. -/
theorem is_duplicate_quote_concat (db : DB) (q a : String) :
    is_duplicate_quote { db with quotes := db.quotes ++ [⟨q, a⟩] } q a = true := by
  simp [is_duplicate_quote]

/-! ## Claims -/

/-- C2: refuted by evaluation (code bug).  The input `"hello. world"`
splits into two sentence fragments, `"hello"` and `"world"`, but the
normalizer's output keeps only the first: the loop
`for i in range(0, len(sentences) - 1, 2)` never visits the final
fragment of the odd-length split list, so the last sentence of every
multi-sentence input is dropped and the sentence count is not
preserved. -/
theorem C2_last_sentence_dropped :
    reSplitPunctSpace (pyStrip "hello. world") = ["hello", ".", "world"] ∧
    normalize_text "hello. world" = "Hello." := by
  exact ⟨by decide, by decide⟩

/-- C7: refuted by evaluation (code bug, same slip as C2).  The output
`"Hello. World."` of the normalizer is not a fixed point: renormalizing it
drops its final sentence and returns `"Hello."`. -/
theorem C7_normalize_not_idempotent :
    normalize_text "hello. world. x" = "Hello. World." ∧
    normalize_text (normalize_text "hello. world. x") = "Hello." ∧
    normalize_text (normalize_text "hello. world. x") ≠
      normalize_text "hello. world. x" := by
  refine ⟨by decide, by decide, by decide⟩

/-- C4: refuted by evaluation (code bug).  `calculate_letter_frequencies`
buckets letters case-sensitively: `"Aa"` produces two buckets keyed `'A'`
and `'a'` (the claim's case-insensitive bucketing would give one bucket
`'a'` with total 2, uppercase 1, percentage 50), and each bucket's
uppercase count is the count of the uppercase form of its key in the whole
text, so for `"AAa"` the bucket keyed `'a'` reports 2 uppercase
occurrences against a total of 1 — an uppercase "percentage" of 200. -/
theorem C4_letter_buckets_case_sensitive :
    calculate_letter_frequencies "Aa" =
      [('A', 1, 1, (100 : ℚ)), ('a', 1, 1, (100 : ℚ))] ∧
    calculate_letter_frequencies "AAa" =
      [('A', 2, 2, (100 : ℚ)), ('a', 1, 2, (200 : ℚ))] := by
  constructor
  · have e : calculate_letter_frequencies "Aa" =
        [('A', 1, 1, round2 (100 * ((1 : ℕ) : ℚ) / ((1 : ℕ) : ℚ))),
         ('a', 1, 1, round2 (100 * ((1 : ℕ) : ℚ) / ((1 : ℕ) : ℚ)))] := rfl
    rw [e, round2_of_intCast 10000 _ (by norm_num)]
    norm_num
  · have e : calculate_letter_frequencies "AAa" =
        [('A', 2, 2, round2 (100 * ((2 : ℕ) : ℚ) / ((2 : ℕ) : ℚ))),
         ('a', 1, 2, round2 (100 * ((2 : ℕ) : ℚ) / ((1 : ℕ) : ℚ)))] := rfl
    rw [e, round2_of_intCast 10000 _ (by norm_num),
        round2_of_intCast 20000 _ (by norm_num)]
    norm_num

/-! ### C9: whitespace-only input -/

theorem toUpper_of_pyIsSpace {c : Char} (h : pyIsSpace c = true) :
    c.toUpper = c := by
  simp only [pyIsSpace, Bool.or_eq_true, decide_eq_true_eq] at h
  rcases h with ((((h | h) | h) | h) | h) | h <;> subst h <;> decide

theorem toLower_of_pyIsSpace {c : Char} (h : pyIsSpace c = true) :
    c.toLower = c := by
  simp only [pyIsSpace, Bool.or_eq_true, decide_eq_true_eq] at h
  rcases h with ((((h | h) | h) | h) | h) | h <;> subst h <;> decide

theorem map_toLower_of_all_space :
    ∀ {l : List Char}, l.all pyIsSpace = true → l.map Char.toLower = l := by
  intro l
  induction l with
  | nil => intro _; rfl
  | cons c rest ih =>
    intro h
    simp only [List.all_cons, Bool.and_eq_true] at h
    simp only [List.map_cons, toLower_of_pyIsSpace h.1, ih h.2]

theorem pyCapitalize_of_all_space {s : String}
    (h : s.data.all pyIsSpace = true) : pyCapitalize s = s := by
  cases s with
  | mk data =>
    cases data with
    | nil => rfl
    | cons c rest =>
      simp only [List.all_cons, Bool.and_eq_true] at h
      show String.mk (pyCapitalizeList (c :: rest)) = String.mk (c :: rest)
      simp only [pyCapitalizeList, toUpper_of_pyIsSpace h.1,
        map_toLower_of_all_space h.2]

theorem stripList_of_all_space {l : List Char}
    (h : l.all pyIsSpace = true) : stripList l = [] := by
  unfold stripList
  rw [List.dropWhile_eq_nil_iff.2 (fun x hx => List.all_eq_true.1 h x hx)]
  rfl

/-- C9: counterexample.  A whitespace-only input is not mapped to the
empty string: for the single-space input the stripped text splits into
one (empty) fragment, so the normalizer returns
`text.capitalize()` of the original input, which is the space itself. -/
theorem C9_counterexample :
    normalize_text " " = " " ∧ (" " : String) ≠ "" := by
  exact ⟨by decide, by decide⟩

/-- C9 amended: the empty input is returned as the empty string, and any
whitespace-only input is returned unchanged (not emptied); no error is
raised in either case. -/
theorem C9_whitespace_returned_unchanged :
    normalize_text "" = "" ∧
    ∀ s : String, s.data.all pyIsSpace = true → normalize_text s = s := by
  refine ⟨by decide, fun s h => ?_⟩
  have hstrip : pyStrip s = "" := by
    show String.mk (stripList s.data) = ""
    rw [stripList_of_all_space h]
  unfold normalize_text
  rw [hstrip]
  exact pyCapitalize_of_all_space h

/-- C9 witness: the amended statement applied to the single-space
input. -/
theorem C9_witness :
    ((" " : String).data.all pyIsSpace = true) ∧ normalize_text " " = " " :=
  ⟨by decide, C9_whitespace_returned_unchanged.2 " " (by decide)⟩

/-! ### C5: blank text is not rejected -/

/-- C5: counterexample.  A JSON news record with no `text` field (which
`record_data.get("text", "")` defaults to the empty string) is inserted:
after processing it the news table holds a row whose text is empty, so the
importer does not reject or skip blank text fields. -/
theorem C5_counterexample :
    (json_process_records now0
        [("1", { publication_type := some "news", city := some "Paris" })]
        emptyFeed).db.news = [⟨"", "Paris", now0⟩] := by
  decide

/-- C5 amended: the importer performs no blank-text validation.  Adding a
news record with empty text to a feed whose store has no
(empty-text, city) row succeeds and stores a row with empty text. -/
theorem C5_empty_text_inserted (f : Feed) (city : String) (now : PyDateTime)
    (h : is_duplicate_news f.db "" city = false) :
    (nf_add_news f "" city now).1 = true ∧
    (nf_add_news f "" city now).2.db.news.getLast? = some ⟨"", city, now⟩ := by
  have hn : normalize_text "" = "" := rfl
  constructor
  · simp [nf_add_news, dm_add_news, hn, h]
  · simp [nf_add_news, dm_add_news, hn, h, List.getLast?_concat]

/-- C5 witness: the amended statement at the empty feed. -/
theorem C5_witness :
    is_duplicate_news emptyFeed.db "" "Paris" = false ∧
    (nf_add_news emptyFeed "" "Paris" now0).1 = true ∧
    (nf_add_news emptyFeed "" "Paris" now0).2.db.news.getLast? =
      some ⟨"", "Paris", now0⟩ :=
  ⟨by decide, C5_empty_text_inserted emptyFeed "Paris" now0 (by decide)⟩

/-! ### C8: malformed ad expiration dates -/

/-- C8: counterexample.  `add_private_ad` checks the duplicate key before
parsing the date, so a duplicate text with a malformed date fails with
`Duplicate`, not `InvalidDate`; and the parse accepts dates that are not
in the fixed zero-padded `YYYY-MM-DD` shape, such as `"2099-1-1"`, which
is inserted rather than rejected. -/
theorem C8_counterexample :
    (dm_add_private_ad ⟨[], [⟨"x", "2030-01-01", 5⟩], []⟩ "x" "not-a-date"
        now0).1 = AddResult.Duplicate ∧
    AddResult.Duplicate ≠ AddResult.InvalidDate ∧
    (dm_add_private_ad emptyDB "t" "2099-1-1" now0).1 =
      AddResult.Inserted := by
  refine ⟨by decide, by decide, by decide⟩

/-- C8 amended: for an ad whose text is not already stored and whose
expiration date fails Python's `%Y-%m-%d` parse (four-digit year, one- or
two-digit month and day forming a valid calendar date), the call fails
with `InvalidDate` and the store is returned unchanged — no row, no
partial state.  (A duplicate text is reported as `Duplicate` before the
date is examined, and unpadded dates such as `2099-1-1` parse
successfully.) -/
theorem C8_invalid_date_rejected (db : DB) (text exp : String)
    (now : PyDateTime) (h1 : is_duplicate_ad db text = false)
    (h2 : parseExpirationDate exp = none) :
    dm_add_private_ad db text exp now = (AddResult.InvalidDate, db) := by
  simp [dm_add_private_ad, h1, h2]

/-- C8 witness: the amended statement at a concrete malformed date. -/
theorem C8_witness :
    is_duplicate_ad emptyDB "t" = false ∧
    parseExpirationDate "not-a-date" = none ∧
    dm_add_private_ad emptyDB "t" "not-a-date" now0 =
      (AddResult.InvalidDate, emptyDB) :=
  ⟨by decide, by decide,
    C8_invalid_date_rejected emptyDB "t" "not-a-date" now0 (by decide)
      (by decide)⟩

/-! ### C1: insert-then-duplicate for the three kinds -/

theorem nf_add_news_of_not_dup (f : Feed) (text city : String)
    (now : PyDateTime)
    (h : is_duplicate_news f.db (normalize_text text) city = false) :
    nf_add_news f text city now =
      (true,
        ⟨{ f.db with
            news := f.db.news ++ [⟨normalize_text text, city, now⟩] },
          f.log ++ ["News -------------------------\n" ++
            normalize_text text ++ "\nCity: " ++ city ++ ", Date: " ++
            strftimeFull now]⟩) := by
  simp [nf_add_news, dm_add_news, h]

theorem nf_add_news_of_dup (f : Feed) (text city : String)
    (now : PyDateTime)
    (h : is_duplicate_news f.db (normalize_text text) city = true) :
    nf_add_news f text city now = (false, ⟨f.db, f.log⟩) := by
  simp [nf_add_news, dm_add_news, h]

theorem nf_add_private_ad_of_not_dup (f : Feed) (text exp : String)
    (ymd : Nat × Nat × Nat) (now : PyDateTime)
    (h : is_duplicate_ad f.db (normalize_text text) = false)
    (hp : parseExpirationDate exp = some ymd) :
    nf_add_private_ad f text exp now =
      (true,
        ⟨{ f.db with
            private_ads := f.db.private_ads ++
              [⟨normalize_text text, exp, daysLeft ymd now⟩] },
          f.log ++ ["Private Ad ------------------\n" ++
            normalize_text text ++ "\nExpires on: " ++ exp ++
            ", Days left: " ++ toString (daysLeft ymd now)]⟩) := by
  simp [nf_add_private_ad, dm_add_private_ad, h, hp]

theorem nf_add_private_ad_of_dup (f : Feed) (text exp : String)
    (now : PyDateTime)
    (h : is_duplicate_ad f.db (normalize_text text) = true) :
    nf_add_private_ad f text exp now = (false, ⟨f.db, f.log⟩) := by
  simp [nf_add_private_ad, dm_add_private_ad, h]

theorem nf_add_motivation_quote_of_not_dup (f : Feed)
    (quote author : String)
    (h : is_duplicate_quote f.db (normalize_text quote) author = false) :
    nf_add_motivation_quote f quote author =
      (true,
        ⟨{ f.db with
            quotes := f.db.quotes ++ [⟨normalize_text quote, author⟩] },
          f.log ++ ["Motivational Quote ----------\n\"" ++
            normalize_text quote ++ "\"\n- " ++ author]⟩) := by
  simp [nf_add_motivation_quote, dm_add_motivation_quote, h]

theorem nf_add_motivation_quote_of_dup (f : Feed) (quote author : String)
    (h : is_duplicate_quote f.db (normalize_text quote) author = true) :
    nf_add_motivation_quote f quote author = (false, ⟨f.db, f.log⟩) := by
  simp [nf_add_motivation_quote, dm_add_motivation_quote, h]

/-- C1: for every record kind, adding the same uniqueness key twice to a
store that does not yet contain it yields `Inserted` at the database layer
(and `True` at the `NewsFeed` layer) on the first call and `Duplicate`
(`False`) on the second; the kind's row count grows by exactly one across
the two calls, and the append log gains exactly one block — the duplicate
call leaves the log untouched. -/
theorem C1_insert_then_duplicate :
    (∀ (f : Feed) (text city : String) (n1 n2 : PyDateTime),
      is_duplicate_news f.db (normalize_text text) city = false →
      (dm_add_news f.db (normalize_text text) city n1).1 =
        AddResult.Inserted ∧
      (nf_add_news f text city n1).1 = true ∧
      (dm_add_news (nf_add_news f text city n1).2.db (normalize_text text)
          city n2).1 = AddResult.Duplicate ∧
      (nf_add_news (nf_add_news f text city n1).2 text city n2).1 = false ∧
      (nf_add_news (nf_add_news f text city n1).2 text city
          n2).2.db.news.length = f.db.news.length + 1 ∧
      (nf_add_news (nf_add_news f text city n1).2 text city
          n2).2.log.length = f.log.length + 1 ∧
      (nf_add_news (nf_add_news f text city n1).2 text city n2).2.log =
        (nf_add_news f text city n1).2.log) ∧
    (∀ (f : Feed) (text exp : String) (ymd : Nat × Nat × Nat)
        (n1 n2 : PyDateTime),
      is_duplicate_ad f.db (normalize_text text) = false →
      parseExpirationDate exp = some ymd →
      (dm_add_private_ad f.db (normalize_text text) exp n1).1 =
        AddResult.Inserted ∧
      (nf_add_private_ad f text exp n1).1 = true ∧
      (dm_add_private_ad (nf_add_private_ad f text exp n1).2.db
          (normalize_text text) exp n2).1 = AddResult.Duplicate ∧
      (nf_add_private_ad (nf_add_private_ad f text exp n1).2 text exp
          n2).1 = false ∧
      (nf_add_private_ad (nf_add_private_ad f text exp n1).2 text exp
          n2).2.db.private_ads.length = f.db.private_ads.length + 1 ∧
      (nf_add_private_ad (nf_add_private_ad f text exp n1).2 text exp
          n2).2.log.length = f.log.length + 1 ∧
      (nf_add_private_ad (nf_add_private_ad f text exp n1).2 text exp
          n2).2.log = (nf_add_private_ad f text exp n1).2.log) ∧
    (∀ (f : Feed) (quote author : String),
      is_duplicate_quote f.db (normalize_text quote) author = false →
      (dm_add_motivation_quote f.db (normalize_text quote) author).1 =
        AddResult.Inserted ∧
      (nf_add_motivation_quote f quote author).1 = true ∧
      (dm_add_motivation_quote
          (nf_add_motivation_quote f quote author).2.db
          (normalize_text quote) author).1 = AddResult.Duplicate ∧
      (nf_add_motivation_quote (nf_add_motivation_quote f quote author).2
          quote author).1 = false ∧
      (nf_add_motivation_quote (nf_add_motivation_quote f quote author).2
          quote author).2.db.quotes.length = f.db.quotes.length + 1 ∧
      (nf_add_motivation_quote (nf_add_motivation_quote f quote author).2
          quote author).2.log.length = f.log.length + 1 ∧
      (nf_add_motivation_quote (nf_add_motivation_quote f quote author).2
          quote author).2.log =
        (nf_add_motivation_quote f quote author).2.log) := by
  refine ⟨fun f text city n1 n2 h => ?_,
    fun f text exp ymd n1 n2 h hp => ?_, fun f quote author h => ?_⟩
  · have hf1 := nf_add_news_of_not_dup f text city n1 h
    have hdup2 : is_duplicate_news (nf_add_news f text city n1).2.db
        (normalize_text text) city = true := by
      rw [hf1]
      exact is_duplicate_news_concat f.db (normalize_text text) city n1
    have hf2 := nf_add_news_of_dup (nf_add_news f text city n1).2 text
      city n2 hdup2
    refine ⟨by simp [dm_add_news, h], by rw [hf1],
      by simp [dm_add_news, hdup2], by rw [hf2], ?_, ?_, by rw [hf2]⟩
    · rw [hf2, hf1]
      simp
    · rw [hf2, hf1]
      simp
  · have hf1 := nf_add_private_ad_of_not_dup f text exp ymd n1 h hp
    have hdup2 : is_duplicate_ad (nf_add_private_ad f text exp n1).2.db
        (normalize_text text) = true := by
      rw [hf1]
      exact is_duplicate_ad_concat f.db (normalize_text text) exp
        (daysLeft ymd n1)
    have hf2 := nf_add_private_ad_of_dup (nf_add_private_ad f text exp
      n1).2 text exp n2 hdup2
    refine ⟨by simp [dm_add_private_ad, h, hp], by rw [hf1],
      by simp [dm_add_private_ad, hdup2], by rw [hf2], ?_, ?_,
      by rw [hf2]⟩
    · rw [hf2, hf1]
      simp
    · rw [hf2, hf1]
      simp
  · have hf1 := nf_add_motivation_quote_of_not_dup f quote author h
    have hdup2 : is_duplicate_quote
        (nf_add_motivation_quote f quote author).2.db
        (normalize_text quote) author = true := by
      rw [hf1]
      exact is_duplicate_quote_concat f.db (normalize_text quote) author
    have hf2 := nf_add_motivation_quote_of_dup
      (nf_add_motivation_quote f quote author).2 quote author hdup2
    refine ⟨by simp [dm_add_motivation_quote, h], by rw [hf1],
      by simp [dm_add_motivation_quote, hdup2], by rw [hf2], ?_, ?_,
      by rw [hf2]⟩
    · rw [hf2, hf1]
      simp
    · rw [hf2, hf1]
      simp

/-- C1 witness: the three parts of the theorem at concrete fresh keys on
the empty feed. -/
theorem C1_witness :
    ((nf_add_news emptyFeed "hi" "Paris" now0).1 = true ∧
      (nf_add_news (nf_add_news emptyFeed "hi" "Paris" now0).2 "hi"
        "Paris" now0).1 = false) ∧
    ((nf_add_private_ad emptyFeed "buy" "2099-01-01" now0).1 = true ∧
      (nf_add_private_ad (nf_add_private_ad emptyFeed "buy" "2099-01-01"
        now0).2 "buy" "2099-01-01" now0).1 = false) ∧
    ((nf_add_motivation_quote emptyFeed "go" "Me").1 = true ∧
      (nf_add_motivation_quote
        (nf_add_motivation_quote emptyFeed "go" "Me").2 "go" "Me").1 =
        false) := by
  have h := C1_insert_then_duplicate
  have h1 := h.1 emptyFeed "hi" "Paris" now0 now0 (by decide)
  have h2 := h.2.1 emptyFeed "buy" "2099-01-01" (2099, 1, 1) now0 now0
    (by decide) (by decide)
  have h3 := h.2.2 emptyFeed "go" "Me" (by decide)
  exact ⟨⟨h1.2.1, h1.2.2.2.1⟩, ⟨h2.2.1, h2.2.2.2.1⟩, ⟨h3.2.1, h3.2.2.2.1⟩⟩

/-! ### C10: duplicate detection on normalized text -/

/-- C10: `NewsFeed.add_news` normalizes before the duplicate check, so
two raw texts with the same normalization (and the same city) collide:
the first is inserted, the second is reported a duplicate, the net row
growth is one, and exactly one row with the normalized key is stored. -/
theorem C10_dedup_on_normalized_text (f : Feed) (t1 t2 city : String)
    (n1 n2 : PyDateTime) (hnorm : normalize_text t1 = normalize_text t2)
    (hdup : is_duplicate_news f.db (normalize_text t1) city = false) :
    (nf_add_news f t1 city n1).1 = true ∧
    (nf_add_news (nf_add_news f t1 city n1).2 t2 city n2).1 = false ∧
    (nf_add_news (nf_add_news f t1 city n1).2 t2 city n2).2.db.news.length
      = f.db.news.length + 1 ∧
    ((nf_add_news (nf_add_news f t1 city n1).2 t2 city
        n2).2.db.news.filter
        (fun r => r.text == normalize_text t1 && r.city == city)).length
      = 1 := by
  have hf1 := nf_add_news_of_not_dup f t1 city n1 hdup
  have hdup2 : is_duplicate_news (nf_add_news f t1 city n1).2.db
      (normalize_text t2) city = true := by
    rw [hf1, ← hnorm]
    exact is_duplicate_news_concat f.db (normalize_text t1) city n1
  have hf2 := nf_add_news_of_dup (nf_add_news f t1 city n1).2 t2 city n2
    hdup2
  refine ⟨by rw [hf1], by rw [hf2], ?_, ?_⟩
  · rw [hf2, hf1]
    simp
  · rw [hf2, hf1]
    have hnil : f.db.news.filter
        (fun r => r.text == normalize_text t1 && r.city == city) = [] :=
      List.filter_eq_nil_iff.2 (List.any_eq_false.1 hdup)
    simp [List.filter_append, hnil]

/-- C10 witness: two raw texts normalizing identically (`"hi there"` and
`"HI THERE"` both normalize to `"Hi there"`). -/
theorem C10_witness :
    normalize_text "hi there" = normalize_text "HI THERE" ∧
    (nf_add_news emptyFeed "hi there" "Rome" now0).1 = true ∧
    (nf_add_news (nf_add_news emptyFeed "hi there" "Rome" now0).2
      "HI THERE" "Rome" now0).1 = false := by
  have h := C10_dedup_on_normalized_text emptyFeed "hi there" "HI THERE"
    "Rome" now0 now0 (by decide) (by decide)
  exact ⟨by decide, h.1, h.2.1⟩

/-! ### C6: the delimited-text importer -/

/-- C6: first, a block matching none of the three kind prefixes is
skipped and processing of the remaining blocks is unaffected; second, a
content whose unknown first block precedes a valid news block still
processes that news block and returns `True` (the path on which the
source file is deleted); third, a content whose block cannot be unpacked
into its two fields (no newline after `News:`) makes the method return
`False` — the hard-failure path on which the source file is kept. -/
theorem C6_unknown_block_skipped :
    (∀ (f : Feed) (now : PyDateTime) (u : String) (rest : List String),
      pyStartsWith (pyLower (pyStrip u)) "news:" = false →
      pyStartsWith (pyLower (pyStrip u)) "private ad:" = false →
      pyStartsWith (pyLower (pyStrip u)) "motivational quote:" = false →
      fp_process_blocks now (u :: rest) f = fp_process_blocks now rest f)
    ∧
    ((fp_process_file "garbage\n---\nNews: hello\nParis" emptyFeed
        now0).2 = true ∧
      (fp_process_file "garbage\n---\nNews: hello\nParis" emptyFeed
        now0).1.db.news = [⟨"Hello", "Paris", now0⟩]) ∧
    fp_process_file "News: missing-city-line" emptyFeed now0 =
      (emptyFeed, false) := by
  refine ⟨fun f now u rest h1 h2 h3 => ?_, ⟨by decide, by decide⟩,
    by decide⟩
  simp [fp_process_blocks, fp_process_block, h1, h2, h3]

/-- C6 witness: the skip statement applied to a concrete unknown block
ahead of a concrete valid block. -/
theorem C6_witness :
    fp_process_blocks now0 ["garbage", "News: hello\nParis"] emptyFeed =
      fp_process_blocks now0 ["News: hello\nParis"] emptyFeed :=
  C6_unknown_block_skipped.1 emptyFeed now0 "garbage"
    ["News: hello\nParis"] (by decide) (by decide) (by decide)

/-! ### C3: fragment capitalization -/

theorem isPunct_not_space {c : Char} (h : isPunct c = true) :
    pyIsSpace c = false := by
  simp only [isPunct, Bool.or_eq_true, decide_eq_true_eq] at h
  rcases h with (h | h) | h <;> subst h <;> decide

theorem noBoundaryB_cons (c : Char) (rest : List Char) :
    noBoundaryB (c :: rest) =
      ((match rest with
        | d :: _ => !(isPunct c && pyIsSpace d)
        | [] => true) && noBoundaryB rest) := rfl

theorem foldl_splitStep_noBoundary :
    ∀ (cs : List Char) (out : List (List Char)) (acc : List Char)
      (pend : Option Char),
      (∀ p, pend = some p → isPunct p = true) →
      noBoundaryB (pendList pend ++ cs) = true →
      (cs.foldl splitStep ⟨out, acc, pend, false⟩).out = out ∧
      (cs.foldl splitStep ⟨out, acc, pend, false⟩).skip = false ∧
      accOf (cs.foldl splitStep ⟨out, acc, pend, false⟩) =
        cs.reverse ++ accOf ⟨out, acc, pend, false⟩ ∧
      (∀ p, (cs.foldl splitStep ⟨out, acc, pend, false⟩).pending = some p →
        isPunct p = true) := by
  intro cs
  induction cs with
  | nil =>
    intro out acc pend hinv _
    exact ⟨rfl, rfl, by simp, hinv⟩
  | cons x rest ih =>
    intro out acc pend hinv hnb
    cases pend with
    | none =>
      simp only [pendList, List.nil_append] at hnb
      have hnb0 := hnb
      rw [noBoundaryB_cons] at hnb
      rw [Bool.and_eq_true] at hnb
      by_cases hx : isPunct x = true
      · have step : splitStep ⟨out, acc, none, false⟩ x =
            ⟨out, acc, some x, false⟩ := by
          simp [splitStep, hx]
        rw [List.foldl_cons, step]
        have h2 := ih out acc (some x)
          (fun p hp => by injection hp with hp; subst hp; exact hx)
          (by simpa [pendList] using hnb0)
        refine ⟨h2.1, h2.2.1, ?_, h2.2.2.2⟩
        rw [h2.2.2.1]
        simp [accOf]
      · have hx2 : isPunct x = false := by
          simpa using hx
        have step : splitStep ⟨out, acc, none, false⟩ x =
            ⟨out, x :: acc, none, false⟩ := by
          simp [splitStep, hx2]
        rw [List.foldl_cons, step]
        have h2 := ih out (x :: acc) none (fun p hp => by cases hp)
          (by simpa [pendList] using hnb.2)
        refine ⟨h2.1, h2.2.1, ?_, h2.2.2.2⟩
        rw [h2.2.2.1]
        simp [accOf]
    | some q =>
      have hq : isPunct q = true := hinv q rfl
      simp only [pendList, List.cons_append, List.nil_append] at hnb
      rw [noBoundaryB_cons] at hnb
      rw [Bool.and_eq_true] at hnb
      have hxs : pyIsSpace x = false := by
        have := hnb.1
        simp only [hq, Bool.true_and, Bool.not_eq_eq_eq_not,
          Bool.not_true] at this
        exact this
      by_cases hx : isPunct x = true
      · have step : splitStep ⟨out, acc, some q, false⟩ x =
            ⟨out, q :: acc, some x, false⟩ := by
          simp [splitStep, hxs, hx]
        rw [List.foldl_cons, step]
        have h2 := ih out (q :: acc) (some x)
          (fun p hp => by injection hp with hp; subst hp; exact hx)
          (by simpa [pendList] using hnb.2)
        refine ⟨h2.1, h2.2.1, ?_, h2.2.2.2⟩
        rw [h2.2.2.1]
        simp [accOf]
      · have hx2 : isPunct x = false := by simpa using hx
        have step : splitStep ⟨out, acc, some q, false⟩ x =
            ⟨out, x :: q :: acc, none, false⟩ := by
          simp [splitStep, hxs, hx2]
        rw [List.foldl_cons, step]
        have h2 := ih out (x :: q :: acc) none (fun p hp => by cases hp)
          (by
            have h3 := hnb.2
            rw [noBoundaryB_cons] at h3
            rw [Bool.and_eq_true] at h3
            simpa [pendList] using h3.2)
        refine ⟨h2.1, h2.2.1, ?_, h2.2.2.2⟩
        rw [h2.2.2.1]
        simp [accOf]

theorem foldl_splitStep_skip_exit (out : List (List Char))
    (acc : List Char) (c : Char) (rest : List Char)
    (hc : pyIsSpace c = false) :
    (c :: rest).foldl splitStep ⟨out, acc, none, true⟩ =
      (c :: rest).foldl splitStep ⟨out, [], none, false⟩ := by
  have step : splitStep ⟨out, acc, none, true⟩ c =
      splitStep ⟨out, [], none, false⟩ c := by
    by_cases hp : isPunct c = true
    · simp [splitStep, hc, hp]
    · have hp2 : isPunct c = false := by simpa using hp
      simp [splitStep, hc, hp2]
  rw [List.foldl_cons, List.foldl_cons, step]

theorem reSplitPunctSpace_three (a b : List Char) (p : Char)
    (hp : isPunct p = true)
    (ha : noBoundaryB a = true)
    (hb : noBoundaryB b = true)
    (hbne : b ≠ [])
    (hbHead : ∀ c, b.head? = some c → pyIsSpace c = false) :
    reSplitPunctSpace (String.mk (a ++ p :: ' ' :: b)) =
      [String.mk a, String.mk [p], String.mk b] := by
  obtain ⟨c, brest, rfl⟩ : ∃ c brest, b = c :: brest := by
    cases b with
    | nil => exact absurd rfl hbne
    | cons c brest => exact ⟨c, brest, rfl⟩
  have hc : pyIsSpace c = false := hbHead c rfl
  unfold reSplitPunctSpace
  have hS := foldl_splitStep_noBoundary a [] [] none
    (fun p hp => by cases hp) (by simpa [pendList] using ha)
  rcases hfold : a.foldl splitStep ⟨[], [], none, false⟩
    with ⟨o1, a1, p1, k1⟩
  rw [hfold] at hS
  obtain ⟨ho1, hk1, hacc1, hinv1⟩ := hS
  simp only at ho1 hk1
  subst ho1 hk1
  have hps : pyIsSpace p = false := isPunct_not_space hp
  have hstep1 : splitStep ⟨[], a1, p1, false⟩ p =
      ⟨[], a.reverse, some p, false⟩ := by
    cases p1 with
    | none =>
      simp only [accOf] at hacc1
      rw [List.append_nil] at hacc1
      simp [splitStep, hp, hacc1]
    | some q =>
      simp only [accOf] at hacc1
      rw [List.append_nil] at hacc1
      simp [splitStep, hps, hp, hacc1]
  have hstep2 : splitStep ⟨[], a.reverse, some p, false⟩ ' ' =
      ⟨[[p], a], [], none, true⟩ := by
    have hsp : pyIsSpace ' ' = true := rfl
    simp [splitStep, hsp]
  have hS2 := foldl_splitStep_noBoundary (c :: brest) [[p], a] [] none
    (fun p hp => by cases hp) (by simpa [pendList] using hb)
  show (List.map String.mk _) = _
  rw [List.foldl_append, hfold, List.foldl_cons, List.foldl_cons, hstep1,
    hstep2, foldl_splitStep_skip_exit _ _ _ _ hc]
  rcases hfold2 : (c :: brest).foldl splitStep ⟨[[p], a], [], none, false⟩
    with ⟨o2, a2, p2, k2⟩
  rw [hfold2] at hS2
  obtain ⟨ho2, hk2, hacc2, hinv2⟩ := hS2
  simp only at ho2 hk2
  subst ho2 hk2
  simp only [accOf] at hacc2
  rw [List.append_nil] at hacc2
  cases p2 with
  | none =>
    have ha2 : a2 = (c :: brest).reverse := hacc2
    rw [ha2]
    simp
  | some r =>
    have ha2 : r :: a2 = (c :: brest).reverse := hacc2
    simp only
    rw [ha2]
    simp



theorem headNotSpace_spec {l : List Char} (h : headNotSpace l = true) :
    ∀ c, l.head? = some c → pyIsSpace c = false := by
  intro c hc
  unfold headNotSpace at h
  rw [hc] at h
  simpa using h

theorem lastNotSpace_spec {l : List Char} (h : lastNotSpace l = true) :
    ∀ c, l.getLast? = some c → pyIsSpace c = false := by
  intro c hc
  unfold lastNotSpace at h
  exact headNotSpace_spec h c (by rw [List.head?_reverse, hc])

theorem stripList_eq_self {l : List Char}
    (h1 : ∀ c, l.head? = some c → pyIsSpace c = false)
    (h2 : ∀ c, l.getLast? = some c → pyIsSpace c = false) :
    stripList l = l := by
  unfold stripList
  have d1 : l.dropWhile pyIsSpace = l := by
    cases l with
    | nil => rfl
    | cons c t =>
      rw [List.dropWhile_cons]
      simp [h1 c rfl]
  rw [d1]
  have d2 : l.reverse.dropWhile pyIsSpace = l.reverse := by
    cases hr : l.reverse with
    | nil => rfl
    | cons c t =>
      rw [List.dropWhile_cons]
      have hg : l.getLast? = some c := by
        rw [← List.head?_reverse, hr]
        rfl
      simp [h2 c hg]
  rw [d2, List.reverse_reverse]

/-- C3 amended: for an input of the form `a ++ p ++ " " ++ b` — a
boundary-free fragment `a`, terminal punctuation `p`, whitespace, and a
boundary-free final fragment `b` (with no leading or trailing whitespace
at the ends of the whole input) — the normalizer returns the Python
capitalization of `a` (first character uppercased, all other characters
lowercased) with its punctuation reattached; the final fragment `b` is
dropped from the output. -/
theorem C3_python_capitalize_drops_final_fragment (a b : String) (p : Char)
    (hp : isPunct p = true)
    (ha : noBoundaryB a.data = true)
    (hb : noBoundaryB b.data = true)
    (haHead : headNotSpace a.data = true)
    (hbne : b.data ≠ [])
    (hbHead : headNotSpace b.data = true)
    (hbLast : lastNotSpace b.data = true) :
    normalize_text (a ++ String.mk [p] ++ " " ++ b) =
      pyCapitalize a ++ String.mk [p] := by
  have hdata : (a ++ String.mk [p] ++ " " ++ b).data =
      a.data ++ p :: ' ' :: b.data := by
    simp [String.data_append]
  obtain ⟨cl, hcl⟩ : ∃ cl, b.data.getLast? = some cl := by
    cases hbl : b.data.getLast? with
    | none => exact absurd (List.getLast?_eq_none_iff.1 hbl) hbne
    | some cl => exact ⟨cl, rfl⟩
  have hh : ∀ c, (a.data ++ p :: ' ' :: b.data).head? = some c →
      pyIsSpace c = false := by
    intro c hc
    cases hA : a.data with
    | nil =>
      rw [hA] at hc
      simp only [List.nil_append, List.head?_cons] at hc
      injection hc with hc
      subst hc
      exact isPunct_not_space hp
    | cons d t =>
      rw [hA] at hc
      simp only [List.cons_append, List.head?_cons] at hc
      injection hc with hc
      exact hc ▸ headNotSpace_spec haHead d (by rw [hA]; rfl)
  have hl : ∀ c, (a.data ++ p :: ' ' :: b.data).getLast? = some c →
      pyIsSpace c = false := by
    intro c hc
    have hsplit : a.data ++ p :: ' ' :: b.data =
        (a.data ++ [p, ' ']) ++ b.data := by
      simp
    rw [hsplit, List.getLast?_append, hcl] at hc
    simp only [Option.or] at hc
    injection hc with hc
    subst hc
    exact lastNotSpace_spec hbLast cl hcl
  have hstrip : pyStrip (a ++ String.mk [p] ++ " " ++ b) =
      a ++ String.mk [p] ++ " " ++ b := by
    show String.mk (stripList _) = _
    rw [hdata, stripList_eq_self hh hl, ← hdata, mk_data]
  have harg : (a ++ String.mk [p] ++ " " ++ b) =
      String.mk (a.data ++ p :: ' ' :: b.data) := by
    rw [← hdata, mk_data]
  unfold normalize_text
  rw [hstrip, harg, reSplitPunctSpace_three a.data b.data p hp ha hb hbne
    (headNotSpace_spec hbHead)]
  simp [normPairs, pyJoin, mk_data]


/-- C3: counterexample.  On the input `"aB. cD"` the claim's words
(uppercase only the first character of each fragment, leave the rest
untouched, keep and rejoin all fragments) give `"AB. CD"`, but the
normalizer returns `"Ab."`: Python's `str.capitalize` lowercases every
character after the first, and the final fragment is dropped. -/
theorem C3_counterexample :
    normalize_text "aB. cD" = "Ab." ∧
    normalizeTextSpec "aB. cD" = "AB. CD" ∧
    ("Ab." : String) ≠ "AB. CD" := by
  refine ⟨by decide, by decide, by decide⟩

/-- C3 witness: the amended statement at `a = "aB"`, `p = '.'`,
`b = "cD"`, i.e. at the input `"aB. cD"`. -/
theorem C3_witness :
    normalize_text ("aB" ++ String.mk ['.'] ++ " " ++ "cD") =
      pyCapitalize "aB" ++ String.mk ['.'] ∧
    ("aB" ++ String.mk ['.'] ++ " " ++ "cD" : String) = "aB. cD" ∧
    pyCapitalize "aB" ++ String.mk ['.'] = "Ab." :=
  ⟨C3_python_capitalize_drops_final_fragment "aB" "cD" '.' (by decide)
      (by decide) (by decide) (by decide) (by decide) (by decide)
      (by decide),
    by decide, by decide⟩

end NewsPipeline
